import Mathlib

/-
Verification of the Concurrency library specification: the concurrent
associative containers `Concurrent::UnorderedMap` and
`Concurrent::ShardedUnorderedMap`, and the benchmark registration macro.

The map implementation headers are not part of the provided sources (only
the test suite `tests/UnorderedConcurrentMapTests.cpp` and the benchmark
harness `examples/map_benchmark/Benchmark.h` are), so the maps are
modelled from the specification: an `UnorderedMap` is a table of unique
(key, value) entries, a `ShardedUnorderedMap` is a fixed-length array of
such tables with every key routed to shard `hash key % shardCount`.
Locking is invisible at this level: each operation is modelled by its
sequential effect on the protected table, which is exactly the behaviour
the spec promises for single-threaded use under the locks.
-/

set_option linter.unusedSectionVars false
set_option linter.unusedVariables false

namespace Concurrent

variable {K V : Type} [BEq K] [LawfulBEq K] [BEq V] [LawfulBEq V]

/-- Modelled from the spec: the two failure kinds of §7. `KeyNotFound`
is raised by `at` and `operator[]` when the key is absent;
`AllocationFailure` is propagated from the underlying table and is fatal
to the operation. The spec identifies the kinds abstractly and does not
name the C++ exception classes that realise them. -/
inductive MapErr : Type where
  | KeyNotFound : MapErr
  | AllocationFailure : MapErr
deriving DecidableEq, Repr

/-- Lookup of a key in a table of entries: the value of the first entry
whose key matches. Models a hash-table lookup on the association-list
level. -/
def listFind (l : List (K × V)) (k : K) : Option V :=
  (l.find? (fun e => e.1 == k)).map Prod.snd

/-- Modelled from the spec: `insert(entry)` returns true iff the key was
absent and the entry was inserted; on a present key the table is
unchanged. -/
def listInsert (l : List (K × V)) (kv : K × V) : Bool × List (K × V) :=
  if (listFind l kv.1).isSome then (false, l) else (true, kv :: l)

/-- Modelled from the spec: `erase(key)` removes the key's entry and
returns 0 or 1, the number of entries removed. -/
def listErase (l : List (K × V)) (k : K) : Nat × List (K × V) :=
  if (listFind l k).isSome then (1, l.filter (fun e => e.1 != k)) else (0, l)

/-- Modelled from the spec: a node handle is a detached entry, either
empty or occupied. -/
def NodeHandle (K V : Type) : Type := Option (K × V)

/-- Modelled from the spec: `empty()` on a node handle. -/
def NodeHandle.isEmptyHandle (nh : NodeHandle K V) : Bool :=
  (nh : Option (K × V)).isNone

/-- Modelled from the spec: `mapped()` of an occupied node handle (none
when the handle is empty, where `mapped()` is unavailable). -/
def NodeHandle.mappedVal (nh : NodeHandle K V) : Option V :=
  (nh : Option (K × V)).map Prod.snd

/-- Modelled from the spec: `extract(key)` removes and returns an
occupied handle, or returns an empty handle (and leaves the table
unchanged) if the key is absent. -/
def listExtract (l : List (K × V)) (k : K) :
    NodeHandle K V × List (K × V) :=
  match listFind l k with
  | some v => (some (k, v), l.filter (fun e => e.1 != k))
  | none => (none, l)

/-- The key-uniqueness invariant of §3: within a single table, keys are
unique. -/
def NodupKeys (l : List (K × V)) : Prop :=
  (l.map Prod.fst).Nodup

instance (priority := low) decEqOfLawfulBEq : DecidableEq K := fun a b =>
  decidable_of_decidable_of_iff beq_iff_eq

instance decNodupKeys (l : List (K × V)) : Decidable (NodupKeys l) :=
  inferInstanceAs (Decidable (l.map Prod.fst).Nodup)

/-- Modelled from the spec: two tables are equal iff they have the same
size and every key in one maps to an equal value in the other. -/
def listBEq (l₁ l₂ : List (K × V)) : Bool :=
  l₁.length == l₂.length && l₁.all (fun kv => listFind l₂ kv.1 == some kv.2)

/-- Modelled from the spec: `Concurrent::UnorderedMap`, a single hash
table of unique (key, value) entries protected by one readers-writer
lock; the lock is invisible at this level and each operation is the
sequential effect it performs on the protected table. -/
structure UnorderedMap (K V : Type) where
  table : List (K × V)

namespace UnorderedMap

/-- Modelled from the spec: default construction gives an empty map. -/
def emptyMap : UnorderedMap K V := ⟨[]⟩

/-- Modelled from the spec: `size()`, the number of entries. -/
def size (m : UnorderedMap K V) : Nat := m.table.length

/-- Modelled from the spec: `empty()`. -/
def empty (m : UnorderedMap K V) : Bool := m.size == 0

/-- Modelled from the spec: `find(key) -> optional<value>`, truthy iff
present. -/
def find (m : UnorderedMap K V) (k : K) : Option V := listFind m.table k

/-- Modelled from the spec: `count(key) -> {0,1}`. -/
def count (m : UnorderedMap K V) (k : K) : Nat :=
  bif (m.find k).isSome then 1 else 0

/-- Modelled from the spec: `at(key)` returns a copy of the value, or
fails with `KeyNotFound` when the key is absent. -/
def at' (m : UnorderedMap K V) (k : K) : Except MapErr V :=
  match m.find k with
  | some v => .ok v
  | none => .error .KeyNotFound

/-- Modelled from the spec: `operator[](key)` has identical semantics to
`at` — it returns the value if present, fails with `KeyNotFound`
otherwise, and intentionally does not default-insert, so the map (the
second component) is returned unchanged. -/
def opIndex (m : UnorderedMap K V) (k : K) :
    (Except MapErr V) × UnorderedMap K V :=
  (m.at' k, m)

/-- Modelled from the spec: `insert(entry) -> bool`, true iff the key was
absent and the entry was inserted. -/
def insert (m : UnorderedMap K V) (kv : K × V) : Bool × UnorderedMap K V :=
  ((listInsert m.table kv).1, ⟨(listInsert m.table kv).2⟩)

/-- Modelled from the spec: the `insert(node_handle)` overload;
inserting an empty node handle is a no-op returning false. -/
def insertNode (m : UnorderedMap K V) (nh : NodeHandle K V) :
    Bool × UnorderedMap K V :=
  match nh with
  | none => (false, m)
  | some kv => m.insert kv

/-- Modelled from the spec: `erase(key) -> integer`, 0 or 1. -/
def erase (m : UnorderedMap K V) (k : K) : Nat × UnorderedMap K V :=
  ((listErase m.table k).1, ⟨(listErase m.table k).2⟩)

/-- Modelled from the spec: `extract(key) -> node_handle`. -/
def extract (m : UnorderedMap K V) (k : K) :
    NodeHandle K V × UnorderedMap K V :=
  ((listExtract m.table k).1, ⟨(listExtract m.table k).2⟩)

/-- Modelled from the spec: `clear()`. -/
def clear (_ : UnorderedMap K V) : UnorderedMap K V := ⟨[]⟩

/-- Modelled from the spec: `data()`, a newly allocated snapshot of all
entries. -/
def data (m : UnorderedMap K V) : List (K × V) := m.table

/-- Modelled from the spec: `==`; two maps compare equal iff they have
the same size and every key in one maps to an equal value in the
other. -/
def beq (a b : UnorderedMap K V) : Bool := listBEq a.data b.data

/-- Modelled from the spec: `!=`. -/
def bne (a b : UnorderedMap K V) : Bool := !(beq a b)

/-- Modelled from the spec: copy construction copies the source's
table. -/
def copy (m : UnorderedMap K V) : UnorderedMap K V := ⟨m.table⟩

/-- The §3 invariant: within a single map, keys are unique. -/
def WF (m : UnorderedMap K V) : Prop := NodupKeys m.table

instance decWF (m : UnorderedMap K V) : Decidable (WF m) :=
  inferInstanceAs (Decidable (NodupKeys m.table))

end UnorderedMap

/-- Modelled from the spec: `Concurrent::ShardedUnorderedMap`, a
fixed-length array of `shardCount` independent tables; a key `k` resides
only in shard `hash k % shardCount`. -/
structure ShardedUnorderedMap (K V : Type) where
  shardCount : Nat
  hash : K → Nat
  shards : List (List (K × V))

namespace ShardedUnorderedMap

/-- Modelled from the spec: shard selection `hash(key) mod N`. -/
def shardIdx (sm : ShardedUnorderedMap K V) (k : K) : Nat :=
  sm.hash k % sm.shardCount

/-- The shard in which key `k` resides. -/
def shardOf (sm : ShardedUnorderedMap K V) (k : K) : List (K × V) :=
  sm.shards.getD (sm.shardIdx k) []

/-- Modelled from the spec: the default shard count. -/
def defaultShardCount : Nat := 16

/-- Modelled from the spec: construction gives `shardCount` empty
shards; `shardCount` is fixed per instance and never changes. -/
def emptyMap (n : Nat) (h : K → Nat) : ShardedUnorderedMap K V :=
  ⟨n, h, List.replicate n []⟩

/-- Replace the shard in which key `k` resides. -/
def setShard (sm : ShardedUnorderedMap K V) (k : K) (s : List (K × V)) :
    ShardedUnorderedMap K V :=
  { sm with shards := sm.shards.set (sm.shardIdx k) s }

/-- Modelled from the spec: `size()` is the sum of per-shard sizes. -/
def size (sm : ShardedUnorderedMap K V) : Nat :=
  (sm.shards.map List.length).sum

/-- Modelled from the spec: `empty()` short-circuits on the first
non-empty shard. -/
def empty (sm : ShardedUnorderedMap K V) : Bool :=
  sm.shards.all (fun s => s.isEmpty)

/-- Modelled from the spec: `find` delegates to the key's shard. -/
def find (sm : ShardedUnorderedMap K V) (k : K) : Option V :=
  listFind (sm.shardOf k) k

/-- Modelled from the spec: `count` delegates to the key's shard. -/
def count (sm : ShardedUnorderedMap K V) (k : K) : Nat :=
  bif (sm.find k).isSome then 1 else 0

/-- Modelled from the spec: `at(key)` delegates to the key's shard and
fails with `KeyNotFound` when the key is absent. -/
def at' (sm : ShardedUnorderedMap K V) (k : K) : Except MapErr V :=
  match sm.find k with
  | some v => .ok v
  | none => .error .KeyNotFound

/-- Modelled from the spec: `operator[](key)` has identical semantics to
`at` and does not default-insert; the map is returned unchanged. -/
def opIndex (sm : ShardedUnorderedMap K V) (k : K) :
    (Except MapErr V) × ShardedUnorderedMap K V :=
  (sm.at' k, sm)

/-- Modelled from the spec: `insert(entry)` routes the entry to its
shard and delegates. -/
def insert (sm : ShardedUnorderedMap K V) (kv : K × V) :
    Bool × ShardedUnorderedMap K V :=
  ((listInsert (sm.shardOf kv.1) kv).1,
    sm.setShard kv.1 (listInsert (sm.shardOf kv.1) kv).2)

/-- Modelled from the spec: `insert(node_handle)` uses the handle's key
to pick the shard; an empty handle is a no-op returning false. -/
def insertNode (sm : ShardedUnorderedMap K V) (nh : NodeHandle K V) :
    Bool × ShardedUnorderedMap K V :=
  match nh with
  | none => (false, sm)
  | some kv => sm.insert kv

/-- Modelled from the spec: `erase(key)` delegates to the key's shard. -/
def erase (sm : ShardedUnorderedMap K V) (k : K) :
    Nat × ShardedUnorderedMap K V :=
  ((listErase (sm.shardOf k) k).1, sm.setShard k (listErase (sm.shardOf k) k).2)

/-- Modelled from the spec: `extract(key)` delegates to the key's
shard. -/
def extract (sm : ShardedUnorderedMap K V) (k : K) :
    NodeHandle K V × ShardedUnorderedMap K V :=
  ((listExtract (sm.shardOf k) k).1,
    sm.setShard k (listExtract (sm.shardOf k) k).2)

/-- Modelled from the spec: `clear()` clears each shard, one at a
time. -/
def clear (sm : ShardedUnorderedMap K V) : ShardedUnorderedMap K V :=
  { sm with shards := sm.shards.map (fun _ => []) }

/-- Modelled from the spec: `data()` concatenates the per-shard
snapshots. -/
def data (sm : ShardedUnorderedMap K V) : List (K × V) :=
  sm.shards.flatten

/-- Modelled from the spec: equality compares sizes, then checks that
every key of `a` maps to an equal value in `b`'s corresponding shard. -/
def beq (a b : ShardedUnorderedMap K V) : Bool :=
  a.size == b.size && a.data.all (fun kv => b.find kv.1 == some kv.2)

/-- Modelled from the spec: `!=`. -/
def bne (a b : ShardedUnorderedMap K V) : Bool := !(beq a b)

/-- Modelled from the spec: `shard_count()`. -/
def shard_count (sm : ShardedUnorderedMap K V) : Nat := sm.shardCount

/-- Modelled from the spec: copy construction copies the shard array
(shared lock on the source). -/
def copy (sm : ShardedUnorderedMap K V) : ShardedUnorderedMap K V :=
  ⟨sm.shardCount, sm.hash, sm.shards⟩

/-- The §3/§4.2 invariants of a sharded map: a positive, fixed shard
count matching the array length, unique keys within each shard, and
every entry residing in the shard its key hashes to. -/
structure WF (sm : ShardedUnorderedMap K V) : Prop where
  pos : 0 < sm.shardCount
  len : sm.shards.length = sm.shardCount
  nodup : ∀ i, i < sm.shards.length → NodupKeys (sm.shards.getD i [])
  placed : ∀ i, i < sm.shards.length →
    ∀ kv ∈ sm.shards.getD i [], sm.hash kv.1 % sm.shardCount = i

end ShardedUnorderedMap

/-- The per-key operations of the common map interface, as exercised by
the polymorphic tests: `insert`, `erase`, `extract` mutate; `at`,
`count`, `find` are read-only. -/
inductive MapOp (K V : Type) where
  | insertOp (k : K) (v : V)
  | eraseOp (k : K)
  | extractOp (k : K)
  | atOp (k : K)
  | countOp (k : K)
  | findOp (k : K)

/-- The state effect of one per-key operation on an `UnorderedMap`
(read-only operations leave the table untouched). -/
def UnorderedMap.applyOp (m : UnorderedMap K V) : MapOp K V → UnorderedMap K V
  | .insertOp k v => (m.insert (k, v)).2
  | .eraseOp k => (m.erase k).2
  | .extractOp k => (m.extract k).2
  | .atOp _ => m
  | .countOp _ => m
  | .findOp _ => m

/-- A sequence of per-key operations applied to an `UnorderedMap`. -/
def UnorderedMap.applyOps (m : UnorderedMap K V) (ops : List (MapOp K V)) :
    UnorderedMap K V :=
  ops.foldl UnorderedMap.applyOp m

/-- The state effect of one per-key operation on a
`ShardedUnorderedMap`. -/
def ShardedUnorderedMap.applyOp (sm : ShardedUnorderedMap K V) :
    MapOp K V → ShardedUnorderedMap K V
  | .insertOp k v => (sm.insert (k, v)).2
  | .eraseOp k => (sm.erase k).2
  | .extractOp k => (sm.extract k).2
  | .atOp _ => sm
  | .countOp _ => sm
  | .findOp _ => sm

/-- A sequence of per-key operations applied to a
`ShardedUnorderedMap`. -/
def ShardedUnorderedMap.applyOps (sm : ShardedUnorderedMap K V)
    (ops : List (MapOp K V)) : ShardedUnorderedMap K V :=
  ops.foldl ShardedUnorderedMap.applyOp sm

/-- The simulation relation between a sharded and an unsharded map:
both are well-formed and they associate the same value to every key. -/
structure SimRel (sm : ShardedUnorderedMap K V) (m : UnorderedMap K V) :
    Prop where
  wfS : sm.WF
  wfU : m.WF
  findEq : ∀ k, sm.find k = m.find k

end Concurrent

namespace Benchmark

/-- From `examples/map_benchmark/Benchmark.h` line 12: the default
`total_iterations` argument of every function generated by
`REGISTER_BENCHMARK` (`constexpr uint64_t default_benchmark_iterations =
1'000'000`). -/
def default_benchmark_iterations : Nat := 1000000

/-- From `examples/map_benchmark/Benchmark.h` lines 43-49
(`REGISTER_BENCHMARK`): the number of timed loop iterations the generated
`bench_<name>` function passes to `Benchmark::bench`. The C++ operands
are `uint64_t`; the comparison and the truncating unsigned division
produce no overflow, so they agree with the Nat operations for all
representable inputs. -/
def benchIterations (subiterations total_iterations : Nat) : Nat :=
  if subiterations ≥ total_iterations then 1
  else total_iterations / subiterations

end Benchmark

namespace Concurrent

variable {K V : Type} [BEq K] [LawfulBEq K] [BEq V] [LawfulBEq V]

@[simp] theorem listFind_nil (k : K) : listFind ([] : List (K × V)) k = none := rfl

@[simp] theorem listFind_cons (a : K) (b : V) (l : List (K × V)) (k : K) :
    listFind ((a, b) :: l) k = if a == k then some b else listFind l k := by
  by_cases h : a == k
  · simp [listFind, List.find?, h]
  · simp only [Bool.not_eq_true] at h
    simp [listFind, List.find?, h]

theorem mem_of_listFind_eq_some {l : List (K × V)} {k : K} {v : V}
    (h : listFind l k = some v) : (k, v) ∈ l := by
  induction l with
  | nil => simp [listFind] at h
  | cons hd tl ih =>
    obtain ⟨a, b⟩ := hd
    rw [listFind_cons] at h
    by_cases hak : a == k
    · simp only [hak, if_true, Option.some.injEq] at h
      have ha : a = k := eq_of_beq hak
      subst ha
      subst h
      exact List.mem_cons_self _ _
    · simp only [hak, if_false] at h
      exact List.mem_cons_of_mem _ (ih h)

theorem listFind_eq_none_iff {l : List (K × V)} {k : K} :
    listFind l k = none ↔ k ∉ l.map Prod.fst := by
  induction l with
  | nil => simp [listFind]
  | cons hd tl ih =>
    obtain ⟨a, b⟩ := hd
    rw [listFind_cons]
    by_cases hak : a == k
    · have : a = k := eq_of_beq hak
      subst this
      simp [hak]
    · have hne : a ≠ k := fun h => hak (beq_iff_eq.mpr h)
      rw [if_neg hak, ih]
      simp [List.mem_cons, Ne.symm hne]

theorem listFind_eq_some_of_mem {l : List (K × V)} {k : K} {v : V}
    (hnd : NodupKeys l) (hmem : (k, v) ∈ l) : listFind l k = some v := by
  induction l with
  | nil => simp at hmem
  | cons hd tl ih =>
    obtain ⟨a, b⟩ := hd
    rw [List.mem_cons] at hmem
    rw [listFind_cons]
    unfold NodupKeys at hnd
    simp only [List.map_cons, List.nodup_cons] at hnd
    rcases hmem with heq | hmem
    · injection heq with h1 h2
      subst h1; subst h2
      simp
    · have hk : k ∈ tl.map Prod.fst := List.mem_map.mpr ⟨(k, v), hmem, rfl⟩
      have hak : ¬(a == k) := by
        intro hb
        exact hnd.1 (eq_of_beq hb ▸ hk)
      simp only [hak, if_false]
      exact ih hnd.2 hmem

theorem listFind_isSome_iff {l : List (K × V)} {k : K} :
    (listFind l k).isSome = true ↔ k ∈ l.map Prod.fst := by
  cases hf : listFind l k with
  | none =>
    simp only [Option.isSome_none, Bool.false_eq_true, false_iff]
    exact listFind_eq_none_iff.mp hf
  | some v =>
    simp only [Option.isSome_some, true_iff]
    exact List.mem_map.mpr ⟨(k, v), mem_of_listFind_eq_some hf, rfl⟩

theorem listFind_filter_self (l : List (K × V)) (k : K) :
    listFind (l.filter (fun e => e.1 != k)) k = none := by
  rw [listFind_eq_none_iff]
  intro h
  obtain ⟨e, he, hfst⟩ := List.mem_map.mp h
  have hp := List.of_mem_filter he
  rw [bne_iff_ne] at hp
  exact hp hfst

theorem listFind_filter_ne {k' k : K} (hne : k' ≠ k) (l : List (K × V)) :
    listFind (l.filter (fun e => e.1 != k)) k' = listFind l k' := by
  induction l with
  | nil => rfl
  | cons hd tl ih =>
    obtain ⟨a, b⟩ := hd
    rw [List.filter_cons]
    by_cases hak : a == k
    · have ha : a = k := eq_of_beq hak
      have hbne : ((a, b).1 != k) = false := by simp [bne, hak]
      simp only [hbne, Bool.false_eq_true, if_false]
      have hkk' : (a == k') = false :=
        beq_eq_false_iff_ne.mpr fun h => hne (h.symm.trans ha)
      rw [listFind_cons, hkk']
      simpa using ih
    · have hab : ((a, b).1 != k) = true := by simp [bne, hak]
      simp only [hab, if_true]
      rw [listFind_cons, listFind_cons, ih]

theorem filter_ne_of_find_none {l : List (K × V)} {k : K}
    (h : listFind l k = none) : l.filter (fun e => e.1 != k) = l := by
  rw [listFind_eq_none_iff] at h
  apply List.filter_eq_self.mpr
  intro e he
  rw [bne_iff_ne]
  intro hc
  exact h (List.mem_map.mpr ⟨e, he, hc⟩)

theorem NodupKeys_filter (p : K × V → Bool) {l : List (K × V)}
    (hnd : NodupKeys l) : NodupKeys (l.filter p) :=
  List.Nodup.sublist (List.Sublist.map Prod.fst (List.filter_sublist l)) hnd

theorem NodupKeys_cons {l : List (K × V)} {k : K} {v : V}
    (h : listFind l k = none) (hnd : NodupKeys l) : NodupKeys ((k, v) :: l) := by
  unfold NodupKeys
  rw [List.map_cons, List.nodup_cons]
  exact ⟨listFind_eq_none_iff.mp h, hnd⟩

theorem length_filter_of_find {l : List (K × V)} {k : K} {v : V}
    (hnd : NodupKeys l) (h : listFind l k = some v) :
    (l.filter (fun e => e.1 != k)).length + 1 = l.length := by
  induction l with
  | nil => simp [listFind] at h
  | cons hd tl ih =>
    obtain ⟨a, b⟩ := hd
    unfold NodupKeys at hnd
    rw [List.map_cons, List.nodup_cons] at hnd
    rw [listFind_cons] at h
    by_cases hak : a == k
    · have ha : a = k := eq_of_beq hak
      subst ha
      rw [List.filter_cons]
      simp only [bne_self_eq_false, if_false, Bool.false_eq_true]
      have : listFind tl a = none := listFind_eq_none_iff.mpr hnd.1
      rw [filter_ne_of_find_none this]
      simp
    · simp only [hak, if_false] at h
      rw [List.filter_cons]
      have hp : ((a, b).1 != k) = true := by simp [bne, hak]
      simp only [hp, if_true]
      rw [List.length_cons, List.length_cons, ih hnd.2 h]

theorem listBEq_iff {l₁ l₂ : List (K × V)} :
    listBEq l₁ l₂ = true ↔
      l₁.length = l₂.length ∧ ∀ kv ∈ l₁, listFind l₂ kv.1 = some kv.2 := by
  simp [listBEq, List.all_eq_true, beq_iff_eq]

theorem listBEq_refl {l : List (K × V)} (h : NodupKeys l) : listBEq l l = true :=
  listBEq_iff.mpr ⟨rfl, fun _ hkv => listFind_eq_some_of_mem h hkv⟩

theorem listPerm_of_listBEq {l₁ l₂ : List (K × V)}
    (h₁ : NodupKeys l₁) (h : listBEq l₁ l₂ = true) : l₁.Perm l₂ := by
  obtain ⟨hlen, hall⟩ := listBEq_iff.mp h
  have hsub : l₁ ⊆ l₂ := fun kv hkv => mem_of_listFind_eq_some (hall kv hkv)
  have hnd : l₁.Nodup := List.Nodup.of_map Prod.fst h₁
  exact (List.subperm_of_subset hnd hsub).perm_of_length_le (le_of_eq hlen.symm)

theorem listBEq_true_symm {l₁ l₂ : List (K × V)}
    (h₁ : NodupKeys l₁) (h : listBEq l₁ l₂ = true) : listBEq l₂ l₁ = true := by
  have hperm := listPerm_of_listBEq h₁ h
  obtain ⟨hlen, _⟩ := listBEq_iff.mp h
  refine listBEq_iff.mpr ⟨hlen.symm, ?_⟩
  intro kv hkv
  exact listFind_eq_some_of_mem h₁ (hperm.mem_iff.mpr hkv)

theorem listBEq_symm {l₁ l₂ : List (K × V)}
    (h₁ : NodupKeys l₁) (h₂ : NodupKeys l₂) : listBEq l₁ l₂ = listBEq l₂ l₁ := by
  rcases hb : listBEq l₁ l₂ with _ | _
  · rcases hb' : listBEq l₂ l₁ with _ | _
    · rfl
    · exact absurd (listBEq_true_symm h₂ hb') (by simp [hb])
  · exact (listBEq_true_symm h₁ hb).symm

theorem getD_set_self {α : Type} {l : List α} {i : Nat} (h : i < l.length)
    (a d : α) : (l.set i a).getD i d = a := by
  rw [List.getD_eq_getElem?_getD, List.getElem?_set_self h]
  rfl

theorem getD_set_ne {α : Type} {l : List α} {i j : Nat} (h : i ≠ j)
    (a d : α) : (l.set i a).getD j d = l.getD j d := by
  rw [List.getD_eq_getElem?_getD, List.getElem?_set_ne h, ← List.getD_eq_getElem?_getD]

theorem getD_eq_getElem {α : Type} {l : List α} {i : Nat} (h : i < l.length)
    (d : α) : l.getD i d = l[i] := by
  rw [List.getD_eq_getElem?_getD, List.getElem?_eq_getElem h]
  rfl

theorem getD_replicate_empty (n i : Nat) :
    (List.replicate n ([] : List (K × V))).getD i [] = [] := by
  induction n generalizing i with
  | zero => simp
  | succ m ih =>
    cases i with
    | zero => rfl
    | succ j => exact ih j

theorem listFind_append (l₁ l₂ : List (K × V)) (k : K) :
    listFind (l₁ ++ l₂) k =
      ((listFind l₁ k).or (listFind l₂ k)) := by
  unfold listFind
  rw [List.find?_append]
  rcases h : l₁.find? (fun e => e.1 == k) with _ | e <;> rw [h] <;> rfl

theorem listFind_flatten_eq_none {L : List (List (K × V))} {k : K}
    (h : ∀ l ∈ L, listFind l k = none) : listFind L.flatten k = none := by
  induction L with
  | nil => rfl
  | cons s L' ih =>
    rw [List.flatten_cons, listFind_append, h s (List.mem_cons_self _ _),
      ih fun l hl => h l (List.mem_cons_of_mem _ hl)]
    rfl

theorem listFind_flatten_of_absent {L : List (List (K × V))} {k : K} {i : Nat}
    (hi : i < L.length)
    (habs : ∀ j, j < L.length → j ≠ i → listFind (L.getD j []) k = none) :
    listFind L.flatten k = listFind (L.getD i []) k := by
  induction L generalizing i with
  | nil => exact absurd hi (Nat.not_lt_zero _)
  | cons s L' ih =>
    rw [List.flatten_cons, listFind_append]
    cases i with
    | zero =>
      have hnone : listFind L'.flatten k = none := by
        apply listFind_flatten_eq_none
        intro l hl
        obtain ⟨j, hj, rfl⟩ := List.mem_iff_getElem.mp hl
        have := habs (j + 1) (by simpa using Nat.succ_lt_succ hj) (Nat.succ_ne_zero j)
        rwa [List.getD_cons_succ, getD_eq_getElem hj] at this
      rw [hnone, List.getD_cons_zero]
      rcases hf : listFind s k with _ | v <;> rfl
    | succ j =>
      have hs : listFind s k = none := by
        have := habs 0 (Nat.succ_pos _) (Nat.succ_ne_zero j).symm
        rwa [List.getD_cons_zero] at this
      rw [hs, List.getD_cons_succ]
      have hrec := ih (Nat.lt_of_succ_lt_succ hi) (fun j' hj' hne => by
        have := habs (j' + 1) (by simpa using Nat.succ_lt_succ hj')
          (fun hc => hne (Nat.succ_injective hc))
        rwa [List.getD_cons_succ] at this)
      rw [← hrec]
      rfl

theorem NodupKeys_flatten_of_placed {L : List (List (K × V))} {f : K → Nat}
    (hnd : ∀ i, i < L.length → NodupKeys (L.getD i []))
    (hplaced : ∀ i, i < L.length → ∀ kv ∈ L.getD i [], f kv.1 = i) :
    NodupKeys L.flatten := by
  unfold NodupKeys
  rw [List.map_flatten, List.nodup_flatten]
  constructor
  · intro l' hl'
    obtain ⟨l, hl, rfl⟩ := List.mem_map.mp hl'
    obtain ⟨i, hi, rfl⟩ := List.mem_iff_getElem.mp hl
    have := hnd i hi
    rwa [getD_eq_getElem hi] at this
  · rw [List.pairwise_map, List.pairwise_iff_getElem]
    intro i j hi hj hij
    rw [List.disjoint_left]
    intro a hai haj
    obtain ⟨kv, hkv, rfl⟩ := List.mem_map.mp hai
    obtain ⟨kv', hkv', hfst⟩ := List.mem_map.mp haj
    have h1 : f kv.1 = i := hplaced i hi kv (by rwa [getD_eq_getElem hi])
    have h2 : f kv.1 = j := by
      have := hplaced j hj kv' (by rwa [getD_eq_getElem hj])
      rwa [hfst] at this
    omega


namespace ShardedUnorderedMap

theorem WF.idx_lt {sm : ShardedUnorderedMap K V} (h : WF sm) (k : K) :
    sm.shardIdx k < sm.shards.length := by
  rw [h.len]
  exact Nat.mod_lt _ h.pos

theorem WF.shardOf_nodup {sm : ShardedUnorderedMap K V} (h : WF sm) (k : K) :
    NodupKeys (sm.shardOf k) :=
  h.nodup _ (h.idx_lt k)

theorem WF.shardOf_placed {sm : ShardedUnorderedMap K V} (h : WF sm) (k : K) :
    ∀ kv ∈ sm.shardOf k, sm.hash kv.1 % sm.shardCount = sm.shardIdx k :=
  h.placed _ (h.idx_lt k)

theorem find_eq_listFind_data {sm : ShardedUnorderedMap K V} (h : WF sm)
    (k : K) : sm.find k = listFind sm.data k := by
  have habs : ∀ j, j < sm.shards.length → j ≠ sm.shardIdx k →
      listFind (sm.shards.getD j []) k = none := by
    intro j hj hne
    rw [listFind_eq_none_iff]
    intro hk
    obtain ⟨kv, hkv, rfl⟩ := List.mem_map.mp hk
    exact hne (h.placed j hj kv hkv).symm
  exact (listFind_flatten_of_absent (h.idx_lt k) habs).symm

theorem data_nodupKeys {sm : ShardedUnorderedMap K V} (h : WF sm) :
    NodupKeys sm.data :=
  NodupKeys_flatten_of_placed (f := fun k => sm.hash k % sm.shardCount)
    h.nodup h.placed

theorem size_eq_length_data (sm : ShardedUnorderedMap K V) :
    sm.size = sm.data.length := by
  unfold size data
  rw [List.length_flatten]

theorem beq_eq_listBEq {a b : ShardedUnorderedMap K V} (hb : WF b) :
    beq a b = listBEq a.data b.data := by
  have hf : b.find = fun k => listFind b.data k :=
    funext (find_eq_listFind_data hb)
  unfold beq listBEq
  rw [size_eq_length_data a, size_eq_length_data b, hf]

theorem WF.emptyMap {n : Nat} (hn : 0 < n) (f : K → Nat) :
    WF (ShardedUnorderedMap.emptyMap (K := K) (V := V) n f) := by
  constructor
  · exact hn
  · exact List.length_replicate ..
  · intro i _
    show NodupKeys ((List.replicate n ([] : List (K × V))).getD i [])
    rw [getD_replicate_empty]
    exact List.nodup_nil
  · intro i _ kv hkv
    have hkv' : kv ∈ (List.replicate n ([] : List (K × V))).getD i [] := hkv
    rw [getD_replicate_empty] at hkv'
    exact absurd hkv' (List.not_mem_nil kv)

theorem WF.setShard {sm : ShardedUnorderedMap K V} (h : WF sm) (k : K)
    {s' : List (K × V)} (hnd : NodupKeys s')
    (hpl : ∀ kv ∈ s', sm.hash kv.1 % sm.shardCount = sm.shardIdx k) :
    WF (sm.setShard k s') := by
  have hlen : (sm.setShard k s').shards.length = sm.shards.length :=
    List.length_set ..
  constructor
  · exact h.pos
  · show (sm.shards.set (sm.shardIdx k) s').length = sm.shardCount
    rw [List.length_set]
    exact h.len
  · intro i hi
    rw [hlen] at hi
    show NodupKeys ((sm.shards.set (sm.shardIdx k) s').getD i [])
    by_cases hik : i = sm.shardIdx k
    · subst hik
      rw [getD_set_self (h.idx_lt k)]
      exact hnd
    · rw [getD_set_ne (Ne.symm hik)]
      exact h.nodup i hi
  · intro i hi kv hkv
    rw [hlen] at hi
    have hkv' : kv ∈ (sm.shards.set (sm.shardIdx k) s').getD i [] := hkv
    show sm.hash kv.1 % sm.shardCount = i
    by_cases hik : i = sm.shardIdx k
    · subst hik
      rw [getD_set_self (h.idx_lt k)] at hkv'
      exact hpl kv hkv'
    · rw [getD_set_ne (Ne.symm hik)] at hkv'
      exact h.placed i hi kv hkv'

theorem WF.insert {sm : ShardedUnorderedMap K V} (h : WF sm) (kv : K × V) :
    WF (sm.insert kv).2 := by
  unfold ShardedUnorderedMap.insert listInsert
  by_cases hp : (listFind (sm.shardOf kv.1) kv.1).isSome
  · simp only [hp, if_true]
    exact h.setShard kv.1 (h.shardOf_nodup kv.1) (h.shardOf_placed kv.1)
  · simp only [hp, if_false]
    refine h.setShard kv.1 ?_ ?_
    · refine NodupKeys_cons ?_ (h.shardOf_nodup kv.1)
      rw [← Option.not_isSome_iff_eq_none]
      exact hp
    · intro kv' hkv'
      rcases List.mem_cons.mp hkv' with rfl | hkv'
      · rfl
      · exact h.shardOf_placed kv.1 kv' hkv'

theorem WF.erase {sm : ShardedUnorderedMap K V} (h : WF sm) (k : K) :
    WF (sm.erase k).2 := by
  unfold ShardedUnorderedMap.erase listErase
  by_cases hp : (listFind (sm.shardOf k) k).isSome
  · simp only [hp, if_true]
    refine h.setShard k (NodupKeys_filter _ (h.shardOf_nodup k)) ?_
    intro kv' hkv'
    exact h.shardOf_placed k kv' (List.mem_of_mem_filter hkv')
  · simp only [hp, if_false]
    exact h.setShard k (h.shardOf_nodup k) (h.shardOf_placed k)

theorem WF.extract {sm : ShardedUnorderedMap K V} (h : WF sm) (k : K) :
    WF (sm.extract k).2 := by
  unfold ShardedUnorderedMap.extract listExtract
  rcases hp : listFind (sm.shardOf k) k with _ | v
  · simp only
    exact h.setShard k (h.shardOf_nodup k) (h.shardOf_placed k)
  · simp only
    refine h.setShard k (NodupKeys_filter _ (h.shardOf_nodup k)) ?_
    intro kv' hkv'
    exact h.shardOf_placed k kv' (List.mem_of_mem_filter hkv')

theorem find_setShard {sm : ShardedUnorderedMap K V} (h : WF sm) (k : K)
    (s' : List (K × V)) (k' : K) :
    (sm.setShard k s').find k' =
      if sm.shardIdx k' = sm.shardIdx k then listFind s' k' else sm.find k' := by
  by_cases hik : sm.shardIdx k' = sm.shardIdx k
  · rw [if_pos hik]
    show listFind ((sm.shards.set (sm.shardIdx k) s').getD (sm.shardIdx k') []) k' = _
    rw [hik, getD_set_self (h.idx_lt k)]
  · rw [if_neg hik]
    show listFind ((sm.shards.set (sm.shardIdx k) s').getD (sm.shardIdx k') []) k' = _
    rw [getD_set_ne (fun he => hik he.symm)]
    rfl

end ShardedUnorderedMap

theorem listFind_listInsert {l : List (K × V)} {k : K} {v : V} (k' : K) :
    listFind (listInsert l (k, v)).2 k' =
      if (listFind l k).isSome then listFind l k'
      else if k == k' then some v else listFind l k' := by
  unfold listInsert
  by_cases hp : (listFind l k).isSome
  · rw [if_pos hp, if_pos hp]
  · rw [if_neg hp, if_neg hp]
    exact listFind_cons ..

theorem listFind_listErase {l : List (K × V)} {k : K} (k' : K) :
    listFind (listErase l k).2 k' =
      if k' == k then none else listFind l k' := by
  by_cases hk : k' == k
  · have hkk : k' = k := eq_of_beq hk
    subst hkk
    rw [if_pos hk]
    unfold listErase
    by_cases hp : (listFind l k').isSome
    · rw [if_pos hp]
      exact listFind_filter_self l k'
    · rw [if_neg hp]
      exact Option.not_isSome_iff_eq_none.mp hp
  · have hkk : k' ≠ k := fun he => hk (beq_iff_eq.mpr he)
    rw [if_neg hk]
    unfold listErase
    by_cases hp : (listFind l k).isSome
    · rw [if_pos hp]
      exact listFind_filter_ne hkk l
    · rw [if_neg hp]

theorem listExtract_snd_eq (l : List (K × V)) (k : K) :
    (listExtract l k).2 = (listErase l k).2 := by
  unfold listExtract listErase
  rcases hf : listFind l k with _ | v <;> simp

theorem UnorderedMap.WF.insertWF {m : UnorderedMap K V} (h : m.WF)
    (kv : K × V) : (m.insert kv).2.WF := by
  unfold UnorderedMap.insert listInsert
  by_cases hp : (listFind m.table kv.1).isSome
  · rw [if_pos hp]
    exact h
  · rw [if_neg hp]
    show NodupKeys (kv :: m.table)
    obtain ⟨k, v⟩ := kv
    exact NodupKeys_cons (Option.not_isSome_iff_eq_none.mp hp) h

theorem UnorderedMap.WF.eraseWF {m : UnorderedMap K V} (h : m.WF)
    (k : K) : (m.erase k).2.WF := by
  unfold UnorderedMap.erase listErase
  by_cases hp : (listFind m.table k).isSome
  · rw [if_pos hp]
    exact NodupKeys_filter _ h
  · rw [if_neg hp]
    exact h

theorem UnorderedMap.WF.extractWF {m : UnorderedMap K V} (h : m.WF)
    (k : K) : (m.extract k).2.WF := by
  show NodupKeys (listExtract m.table k).2
  rw [listExtract_snd_eq]
  exact UnorderedMap.WF.eraseWF h k

theorem UnorderedMap.WF.applyOpWF {m : UnorderedMap K V} (h : m.WF)
    (op : MapOp K V) : (m.applyOp op).WF := by
  cases op with
  | insertOp k v => exact h.insertWF (k, v)
  | eraseOp k => exact h.eraseWF k
  | extractOp k => exact h.extractWF k
  | atOp k => exact h
  | countOp k => exact h
  | findOp k => exact h

theorem UnorderedMap.WF.applyOpsWF {m : UnorderedMap K V} (h : m.WF)
    (ops : List (MapOp K V)) : (m.applyOps ops).WF := by
  induction ops generalizing m with
  | nil => exact h
  | cons op ops ih => exact ih (h.applyOpWF op)

theorem ShardedUnorderedMap.WF.applyOpWFS {sm : ShardedUnorderedMap K V}
    (h : sm.WF) (op : MapOp K V) : (sm.applyOp op).WF := by
  cases op with
  | insertOp k v => exact h.insert (k, v)
  | eraseOp k => exact h.erase k
  | extractOp k => exact h.extract k
  | atOp k => exact h
  | countOp k => exact h
  | findOp k => exact h

theorem ShardedUnorderedMap.WF.applyOpsWFS {sm : ShardedUnorderedMap K V}
    (h : sm.WF) (ops : List (MapOp K V)) : (sm.applyOps ops).WF := by
  induction ops generalizing sm with
  | nil => exact h
  | cons op ops ih => exact ih (h.applyOpWFS op)

theorem UnorderedMap.find_insert (m : UnorderedMap K V) (k : K) (v : V)
    (k' : K) :
    (m.insert (k, v)).2.find k' =
      if (m.find k).isSome then m.find k'
      else if k == k' then some v else m.find k' :=
  listFind_listInsert k'

theorem UnorderedMap.find_erase (m : UnorderedMap K V) (k k' : K) :
    (m.erase k).2.find k' = if k' == k then none else m.find k' :=
  listFind_listErase k'

theorem UnorderedMap.extract_state_eq (m : UnorderedMap K V) (k : K) :
    (m.extract k).2 = (m.erase k).2 := by
  unfold UnorderedMap.extract UnorderedMap.erase
  rw [listExtract_snd_eq]

theorem ShardedUnorderedMap.extractS_state_eq (sm : ShardedUnorderedMap K V)
    (k : K) : (sm.extract k).2 = (sm.erase k).2 := by
  unfold ShardedUnorderedMap.extract ShardedUnorderedMap.erase
  rw [listExtract_snd_eq]

theorem ShardedUnorderedMap.findS_insert {sm : ShardedUnorderedMap K V}
    (h : sm.WF) (k : K) (v : V) (k' : K) :
    (sm.insert (k, v)).2.find k' =
      if (sm.find k).isSome then sm.find k'
      else if k == k' then some v else sm.find k' := by
  unfold ShardedUnorderedMap.insert
  rw [ShardedUnorderedMap.find_setShard h]
  by_cases hik : sm.shardIdx k' = sm.shardIdx k
  · rw [if_pos hik, listFind_listInsert k']
    have h1 : sm.find k' = listFind (sm.shardOf k) k' := by
      unfold ShardedUnorderedMap.find ShardedUnorderedMap.shardOf
      rw [hik]
    rw [← h1]
    rfl
  · rw [if_neg hik]
    have hkk : ¬(k == k') = true := fun hb =>
      hik (congrArg sm.shardIdx (eq_of_beq hb)).symm
    by_cases hp : (sm.find k).isSome
    · rw [if_pos hp]
    · rw [if_neg hp, if_neg hkk]

theorem ShardedUnorderedMap.findS_erase {sm : ShardedUnorderedMap K V}
    (h : sm.WF) (k k' : K) :
    (sm.erase k).2.find k' = if k' == k then none else sm.find k' := by
  unfold ShardedUnorderedMap.erase
  rw [ShardedUnorderedMap.find_setShard h]
  by_cases hik : sm.shardIdx k' = sm.shardIdx k
  · rw [if_pos hik, listFind_listErase k']
    by_cases hk : k' == k
    · rw [if_pos hk, if_pos hk]
    · rw [if_neg hk, if_neg hk]
      show listFind (sm.shards.getD (sm.shardIdx k) []) k' = sm.find k'
      unfold ShardedUnorderedMap.find ShardedUnorderedMap.shardOf
      rw [hik]
  · rw [if_neg hik]
    have hk : ¬(k' == k) = true := fun hb =>
      hik (congrArg sm.shardIdx (eq_of_beq hb))
    rw [if_neg hk]

theorem SimRel.applyOp {sm : ShardedUnorderedMap K V} {m : UnorderedMap K V}
    (h : SimRel sm m) (op : MapOp K V) :
    SimRel (sm.applyOp op) (m.applyOp op) := by
  cases op with
  | insertOp k v =>
    refine ⟨h.wfS.insert (k, v), h.wfU.insertWF (k, v), ?_⟩
    intro k'
    show (sm.insert (k, v)).2.find k' = (m.insert (k, v)).2.find k'
    rw [ShardedUnorderedMap.findS_insert h.wfS, UnorderedMap.find_insert,
      h.findEq k, h.findEq k']
  | eraseOp k =>
    refine ⟨h.wfS.erase k, h.wfU.eraseWF k, ?_⟩
    intro k'
    show (sm.erase k).2.find k' = (m.erase k).2.find k'
    rw [ShardedUnorderedMap.findS_erase h.wfS, UnorderedMap.find_erase,
      h.findEq k']
  | extractOp k =>
    refine ⟨h.wfS.extract k, h.wfU.extractWF k, ?_⟩
    intro k'
    show (sm.extract k).2.find k' = (m.extract k).2.find k'
    rw [ShardedUnorderedMap.extractS_state_eq, UnorderedMap.extract_state_eq,
      ShardedUnorderedMap.findS_erase h.wfS, UnorderedMap.find_erase,
      h.findEq k']
  | atOp k => exact h
  | countOp k => exact h
  | findOp k => exact h

theorem SimRel.applyOps {sm : ShardedUnorderedMap K V} {m : UnorderedMap K V}
    (h : SimRel sm m) (ops : List (MapOp K V)) :
    SimRel (sm.applyOps ops) (m.applyOps ops) := by
  induction ops generalizing sm m with
  | nil => exact h
  | cons op ops ih => exact ih (h.applyOp op)

theorem SimRel.emptyRel {n : Nat} (hn : 0 < n) (f : K → Nat) :
    SimRel (ShardedUnorderedMap.emptyMap (K := K) (V := V) n f)
      UnorderedMap.emptyMap := by
  refine ⟨ShardedUnorderedMap.WF.emptyMap hn f, List.nodup_nil, ?_⟩
  intro k
  show listFind ((List.replicate n ([] : List (K × V))).getD _ []) k =
    listFind [] k
  rw [getD_replicate_empty]

theorem SimRel.data_mem_iff {sm : ShardedUnorderedMap K V}
    {m : UnorderedMap K V} (h : SimRel sm m) (kv : K × V) :
    kv ∈ sm.data ↔ kv ∈ m.data := by
  have hndS := ShardedUnorderedMap.data_nodupKeys h.wfS
  have hndU : NodupKeys m.data := h.wfU
  constructor
  · intro hmem
    have hf : listFind sm.data kv.1 = some kv.2 :=
      listFind_eq_some_of_mem hndS hmem
    rw [← ShardedUnorderedMap.find_eq_listFind_data h.wfS, h.findEq] at hf
    exact mem_of_listFind_eq_some hf
  · intro hmem
    have hf : listFind m.data kv.1 = some kv.2 :=
      listFind_eq_some_of_mem hndU hmem
    have hs : sm.find kv.1 = some kv.2 := by
      rw [h.findEq]
      exact hf
    rw [ShardedUnorderedMap.find_eq_listFind_data h.wfS] at hs
    exact mem_of_listFind_eq_some hs

theorem listBEq_of_perm {l₁ l₂ : List (K × V)} (hnd : NodupKeys l₂)
    (hp : l₁.Perm l₂) : listBEq l₁ l₂ = true :=
  listBEq_iff.mpr ⟨hp.length_eq,
    fun _ hkv => listFind_eq_some_of_mem hnd (hp.mem_iff.mp hkv)⟩

theorem cons_filter_perm {l : List (K × V)} {k : K} {v : V}
    (hnd : NodupKeys l) (h : listFind l k = some v) :
    ((k, v) :: l.filter (fun e => e.1 != k)).Perm l := by
  induction l with
  | nil => simp [listFind] at h
  | cons hd tl ih =>
    obtain ⟨a, b⟩ := hd
    unfold NodupKeys at hnd
    rw [List.map_cons, List.nodup_cons] at hnd
    rw [listFind_cons] at h
    by_cases hak : a == k
    · have ha : a = k := eq_of_beq hak
      subst ha
      simp only [hak, if_true, Option.some.injEq] at h
      subst h
      rw [List.filter_cons]
      simp only [bne_self_eq_false, Bool.false_eq_true, if_false]
      rw [filter_ne_of_find_none (listFind_eq_none_iff.mpr hnd.1)]
    · simp only [hak, if_false] at h
      rw [List.filter_cons]
      have hab : ((a, b).1 != k) = true := by simp [bne, hak]
      simp only [hab, if_true]
      exact (List.Perm.swap (a, b) (k, v) _).trans
        (List.Perm.cons (a, b) (ih hnd.2 h))

theorem flatten_set_perm {α : Type} {L : List (List α)} {i : Nat}
    {s' : List α} (hi : i < L.length) (hp : s'.Perm (L.getD i [])) :
    (L.set i s').flatten.Perm L.flatten := by
  induction L generalizing i with
  | nil => exact absurd hi (Nat.not_lt_zero _)
  | cons s L' ih =>
    cases i with
    | zero =>
      rw [List.set_cons_zero, List.flatten_cons, List.flatten_cons]
      exact List.Perm.append_right _ (by simpa using hp)
    | succ j =>
      rw [List.set_cons_succ, List.flatten_cons, List.flatten_cons]
      exact List.Perm.append_left _
        (ih (Nat.lt_of_succ_lt_succ hi) (by simpa using hp))

theorem flatten_replicate_nil {α : Type} (n : Nat) :
    (List.replicate n ([] : List α)).flatten = [] := by
  induction n with
  | zero => rfl
  | succ m ih =>
    rw [List.replicate_succ, List.flatten_cons, ih]
    rfl

theorem UnorderedMap.count_eq_zero_iff (m : UnorderedMap K V) (k : K) :
    m.count k = 0 ↔ m.find k = none := by
  unfold UnorderedMap.count
  rcases m.find k with _ | v <;> simp

theorem ShardedUnorderedMap.countS_eq_zero_iff (sm : ShardedUnorderedMap K V)
    (k : K) : sm.count k = 0 ↔ sm.find k = none := by
  unfold ShardedUnorderedMap.count
  rcases sm.find k with _ | v <;> simp

theorem UnorderedMap.at_of_find {m : UnorderedMap K V} {k : K} {v : V}
    (h : m.find k = some v) : m.at' k = .ok v := by
  unfold UnorderedMap.at'
  rw [h]

theorem UnorderedMap.at_of_find_none {m : UnorderedMap K V} {k : K}
    (h : m.find k = none) : m.at' k = .error .KeyNotFound := by
  unfold UnorderedMap.at'
  rw [h]

theorem ShardedUnorderedMap.atS_of_find {sm : ShardedUnorderedMap K V} {k : K}
    {v : V} (h : sm.find k = some v) : sm.at' k = .ok v := by
  unfold ShardedUnorderedMap.at'
  rw [h]

theorem ShardedUnorderedMap.atS_of_find_none {sm : ShardedUnorderedMap K V}
    {k : K} (h : sm.find k = none) : sm.at' k = .error .KeyNotFound := by
  unfold ShardedUnorderedMap.at'
  rw [h]

theorem listExtract_fst (l : List (K × V)) (k : K) :
    (listExtract l k).1 = (listFind l k).map (fun v => (k, v)) := by
  unfold listExtract
  rcases hf : listFind l k with _ | v <;> simp

theorem listExtract_snd_of_find_some {l : List (K × V)} {k : K} {v : V}
    (h : listFind l k = some v) :
    (listExtract l k).2 = l.filter (fun e => e.1 != k) := by
  unfold listExtract
  rw [h]

theorem UnorderedMap.insert_fst_true {m : UnorderedMap K V} {k : K} (v : V)
    (h : m.find k = none) : (m.insert (k, v)).1 = true := by
  show (listInsert m.table (k, v)).1 = true
  unfold listInsert
  have hh : listFind m.table (k, v).1 = none := h
  rw [hh]
  rfl

theorem UnorderedMap.insert_fst_false {m : UnorderedMap K V} {k : K}
    (v : V) {w : V} (h : m.find k = some w) : (m.insert (k, v)).1 = false := by
  show (listInsert m.table (k, v)).1 = false
  unfold listInsert
  have hh : listFind m.table (k, v).1 = some w := h
  rw [hh]
  rfl

theorem ShardedUnorderedMap.insertS_fst_true {sm : ShardedUnorderedMap K V}
    {k : K} (v : V) (h : sm.find k = none) : (sm.insert (k, v)).1 = true := by
  show (listInsert (sm.shardOf (k, v).1) (k, v)).1 = true
  unfold listInsert
  have hh : listFind (sm.shardOf (k, v).1) (k, v).1 = none := h
  rw [hh]
  rfl

theorem ShardedUnorderedMap.insertS_fst_false {sm : ShardedUnorderedMap K V}
    {k : K} (v : V) {w : V} (h : sm.find k = some w) :
    (sm.insert (k, v)).1 = false := by
  show (listInsert (sm.shardOf (k, v).1) (k, v)).1 = false
  unfold listInsert
  have hh : listFind (sm.shardOf (k, v).1) (k, v).1 = some w := h
  rw [hh]
  rfl

theorem UnorderedMap.extract_fst {m : UnorderedMap K V} {k : K} {v : V}
    (hv : m.find k = some v) : (m.extract k).1 = some (k, v) := by
  show (listExtract m.table k).1 = some (k, v)
  rw [listExtract_fst]
  have hh : listFind m.table k = some v := hv
  rw [hh]
  rfl

theorem UnorderedMap.extract_fst_none {m : UnorderedMap K V} {k : K}
    (hv : m.find k = none) : (m.extract k).1 = none := by
  show (listExtract m.table k).1 = none
  rw [listExtract_fst]
  have hh : listFind m.table k = none := hv
  rw [hh]
  rfl

theorem ShardedUnorderedMap.extractS_fst {sm : ShardedUnorderedMap K V}
    {k : K} {v : V} (hv : sm.find k = some v) :
    (sm.extract k).1 = some (k, v) := by
  show (listExtract (sm.shardOf k) k).1 = some (k, v)
  rw [listExtract_fst]
  have hh : listFind (sm.shardOf k) k = some v := hv
  rw [hh]
  rfl

theorem ShardedUnorderedMap.extractS_fst_none {sm : ShardedUnorderedMap K V}
    {k : K} (hv : sm.find k = none) : (sm.extract k).1 = none := by
  show (listExtract (sm.shardOf k) k).1 = none
  rw [listExtract_fst]
  have hh : listFind (sm.shardOf k) k = none := hv
  rw [hh]
  rfl

theorem UnorderedMap.find_extract (m : UnorderedMap K V) (k k' : K) :
    (m.extract k).2.find k' = if k' == k then none else m.find k' := by
  rw [UnorderedMap.extract_state_eq]
  exact UnorderedMap.find_erase m k k'

theorem ShardedUnorderedMap.findS_extract {sm : ShardedUnorderedMap K V}
    (h : sm.WF) (k k' : K) :
    (sm.extract k).2.find k' = if k' == k then none else sm.find k' := by
  rw [ShardedUnorderedMap.extractS_state_eq]
  exact ShardedUnorderedMap.findS_erase h k k'

theorem UnorderedMap.roundtrip_table {m : UnorderedMap K V} {k : K} {v : V}
    (hv : m.find k = some v) :
    ((m.extract k).2.insertNode (m.extract k).1).2.table
      = (k, v) :: m.table.filter (fun e => e.1 != k) := by
  rw [UnorderedMap.extract_fst hv]
  show (listInsert (m.extract k).2.table (k, v)).2 = _
  have htbl : (m.extract k).2.table = m.table.filter (fun e => e.1 != k) := by
    show (listExtract m.table k).2 = _
    exact listExtract_snd_of_find_some hv
  have hfn : listFind (m.extract k).2.table (k, v).1 = none := by
    rw [htbl]
    exact listFind_filter_self _ _
  unfold listInsert
  rw [hfn, htbl]
  rfl

theorem ShardedUnorderedMap.roundtrip_shards {sm : ShardedUnorderedMap K V}
    (h : sm.WF) {k : K} {v : V} (hv : sm.find k = some v) :
    ((sm.extract k).2.insertNode (sm.extract k).1).2.shards
      = sm.shards.set (sm.shardIdx k)
          ((k, v) :: (sm.shardOf k).filter (fun e => e.1 != k)) := by
  rw [ShardedUnorderedMap.extractS_fst hv]
  have hsv : listFind (sm.shardOf k) k = some v := hv
  have hsh1 : (sm.extract k).2.shards
      = sm.shards.set (sm.shardIdx k)
          ((sm.shardOf k).filter (fun e => e.1 != k)) := by
    show (sm.setShard k (listExtract (sm.shardOf k) k).2).shards = _
    rw [listExtract_snd_of_find_some hsv]
    rfl
  have hso1 : (sm.extract k).2.shardOf k
      = (sm.shardOf k).filter (fun e => e.1 != k) := by
    show (sm.extract k).2.shards.getD (sm.shardIdx k) [] = _
    rw [hsh1]
    exact getD_set_self (h.idx_lt k) _ _
  have hfn : listFind ((sm.extract k).2.shardOf k) k = none := by
    rw [hso1]
    exact listFind_filter_self _ _
  have hins : (listInsert ((sm.extract k).2.shardOf k) (k, v)).2
      = (k, v) :: (sm.shardOf k).filter (fun e => e.1 != k) := by
    unfold listInsert
    rw [hfn, hso1]
    rfl
  show (sm.extract k).2.shards.set (sm.shardIdx k)
      (listInsert ((sm.extract k).2.shardOf k) (k, v)).2 = _
  rw [hins, hsh1, List.set_set]

theorem ShardedUnorderedMap.roundtrip_data_perm
    {sm : ShardedUnorderedMap K V} (h : sm.WF) {k : K} {v : V}
    (hv : sm.find k = some v) :
    ((sm.extract k).2.insertNode (sm.extract k).1).2.data.Perm sm.data := by
  show ((sm.extract k).2.insertNode (sm.extract k).1).2.shards.flatten.Perm
    sm.shards.flatten
  rw [ShardedUnorderedMap.roundtrip_shards h hv]
  refine flatten_set_perm (h.idx_lt k) ?_
  exact cons_filter_perm (h.shardOf_nodup k) hv

/-- C1: for every map (`UnorderedMap` or `ShardedUnorderedMap`) and
every key absent from it, both `at` and `operator[]` fail with
`KeyNotFound`; `operator[]` does not default-insert, so after the failed
call the map is unchanged and the key is still absent. -/
theorem C1_absent_key_fails_and_leaves_map_unchanged
    (m : UnorderedMap K V) (sm : ShardedUnorderedMap K V) (k k' : K)
    (hm : m.find k = none) (hsm : sm.find k' = none) :
    m.at' k = .error .KeyNotFound ∧
    (m.opIndex k).1 = .error .KeyNotFound ∧
    (m.opIndex k).2 = m ∧
    (m.opIndex k).2.find k = none ∧
    sm.at' k' = .error .KeyNotFound ∧
    (sm.opIndex k').1 = .error .KeyNotFound ∧
    (sm.opIndex k').2 = sm ∧
    (sm.opIndex k').2.find k' = none :=
  ⟨UnorderedMap.at_of_find_none hm, UnorderedMap.at_of_find_none hm, rfl, hm,
    ShardedUnorderedMap.atS_of_find_none hsm,
    ShardedUnorderedMap.atS_of_find_none hsm, rfl, hsm⟩

/-- Witness for C1 at a concrete map and key. -/
theorem C1_witness :
    (UnorderedMap.mk [((1 : Nat), (10 : Nat))]).find 0 = none ∧
    (ShardedUnorderedMap.mk 2 (fun j => j)
      [[], [((1 : Nat), (20 : Nat))]]).find 0 = none ∧
    ((UnorderedMap.mk [((1 : Nat), (10 : Nat))]).at' 0
        = .error .KeyNotFound ∧
      ((UnorderedMap.mk [((1 : Nat), (10 : Nat))]).opIndex 0).1
        = .error .KeyNotFound ∧
      ((UnorderedMap.mk [((1 : Nat), (10 : Nat))]).opIndex 0).2
        = UnorderedMap.mk [((1 : Nat), (10 : Nat))] ∧
      ((UnorderedMap.mk [((1 : Nat), (10 : Nat))]).opIndex 0).2.find 0
        = none ∧
      (ShardedUnorderedMap.mk 2 (fun j => j)
          [[], [((1 : Nat), (20 : Nat))]]).at' 0 = .error .KeyNotFound ∧
      ((ShardedUnorderedMap.mk 2 (fun j => j)
          [[], [((1 : Nat), (20 : Nat))]]).opIndex 0).1
        = .error .KeyNotFound ∧
      ((ShardedUnorderedMap.mk 2 (fun j => j)
          [[], [((1 : Nat), (20 : Nat))]]).opIndex 0).2
        = ShardedUnorderedMap.mk 2 (fun j => j)
            [[], [((1 : Nat), (20 : Nat))]] ∧
      ((ShardedUnorderedMap.mk 2 (fun j => j)
          [[], [((1 : Nat), (20 : Nat))]]).opIndex 0).2.find 0 = none) :=
  ⟨by decide, by decide,
    C1_absent_key_fails_and_leaves_map_unchanged _ _ 0 0 (by decide)
      (by decide)⟩

/-- C8: inserting an empty node handle into either map variant is a
no-op returning false. -/
theorem C8_insert_empty_handle_is_noop
    (m : UnorderedMap K V) (sm : ShardedUnorderedMap K V)
    (nh nh' : NodeHandle K V)
    (h : nh.isEmptyHandle = true) (h' : nh'.isEmptyHandle = true) :
    m.insertNode nh = (false, m) ∧ sm.insertNode nh' = (false, sm) := by
  have h1 : nh = none := Option.isNone_iff_eq_none.mp h
  have h2 : nh' = none := Option.isNone_iff_eq_none.mp h'
  subst h1
  subst h2
  exact ⟨rfl, rfl⟩

/-- Witness for C8 at a concrete map and the empty handle. -/
theorem C8_witness :
    NodeHandle.isEmptyHandle (none : NodeHandle Nat Nat) = true ∧
    ((UnorderedMap.mk [((1 : Nat), (10 : Nat))]).insertNode none
        = (false, UnorderedMap.mk [((1 : Nat), (10 : Nat))]) ∧
      (ShardedUnorderedMap.mk 2 (fun j => j)
          [[], [((1 : Nat), (20 : Nat))]]).insertNode none
        = (false, ShardedUnorderedMap.mk 2 (fun j => j)
            [[], [((1 : Nat), (20 : Nat))]])) :=
  ⟨by decide,
    C8_insert_empty_handle_is_noop _ _ none none (by decide) (by decide)⟩

/-- C2: for any sequence of per-key operations applied identically to an
`UnorderedMap` and a `ShardedUnorderedMap` that both start empty, the two
maps end with equal contents: their `data()` snapshots are equal as sets
of entries. -/
theorem C2_sharded_unsharded_equal_contents
    (ops : List (MapOp K V)) (n : Nat) (f : K → Nat) (hn : 0 < n) :
    ∀ kv : K × V,
      kv ∈ ((ShardedUnorderedMap.emptyMap n f).applyOps ops).data ↔
        kv ∈ ((UnorderedMap.emptyMap (K := K) (V := V)).applyOps ops).data :=
  fun kv => ((SimRel.emptyRel hn f).applyOps ops).data_mem_iff kv

/-- Witness for C2 at a concrete operation sequence and entry. -/
theorem C2_witness :
    0 < 16 ∧
    (((4, 5) : Nat × Nat) ∈
        ((ShardedUnorderedMap.emptyMap 16 (fun j => j)).applyOps
          [MapOp.insertOp 1 2, MapOp.insertOp 1 3, MapOp.eraseOp 2,
            MapOp.extractOp 1, MapOp.insertOp 4 5, MapOp.findOp 4]).data ↔
      ((4, 5) : Nat × Nat) ∈
        ((UnorderedMap.emptyMap).applyOps
          [MapOp.insertOp 1 2, MapOp.insertOp 1 3, MapOp.eraseOp 2,
            MapOp.extractOp 1, MapOp.insertOp 4 5, MapOp.findOp 4]).data) :=
  ⟨by decide,
    C2_sharded_unsharded_equal_contents
      [MapOp.insertOp 1 2, MapOp.insertOp 1 3, MapOp.eraseOp 2,
        MapOp.extractOp 1, MapOp.insertOp 4 5, MapOp.findOp 4]
      16 (fun j => j) (by decide) (4, 5)⟩

/-- C3: on an absent key, a first `insert((k,v))` returns true and
establishes `at(k) = v`; an immediately subsequent `insert((k,v'))`
returns false and `at(k)` is unchanged — for both map variants. -/
theorem C3_insert_monotonicity
    (m : UnorderedMap K V) (sm : ShardedUnorderedMap K V) (hwf : sm.WF)
    (k : K) (v v' : V) (hm : m.count k = 0) (hs : sm.count k = 0) :
    (m.insert (k, v)).1 = true ∧
    (m.insert (k, v)).2.at' k = .ok v ∧
    ((m.insert (k, v)).2.insert (k, v')).1 = false ∧
    ((m.insert (k, v)).2.insert (k, v')).2.at' k = .ok v ∧
    (sm.insert (k, v)).1 = true ∧
    (sm.insert (k, v)).2.at' k = .ok v ∧
    ((sm.insert (k, v)).2.insert (k, v')).1 = false ∧
    ((sm.insert (k, v)).2.insert (k, v')).2.at' k = .ok v := by
  have hm0 : m.find k = none := (m.count_eq_zero_iff k).mp hm
  have hs0 : sm.find k = none := (sm.countS_eq_zero_iff k).mp hs
  have hmf1 : (m.insert (k, v)).2.find k = some v := by
    rw [UnorderedMap.find_insert, hm0]
    simp
  have hmf2 : ((m.insert (k, v)).2.insert (k, v')).2.find k = some v := by
    rw [UnorderedMap.find_insert, hmf1]
    simp
  have hsf1 : (sm.insert (k, v)).2.find k = some v := by
    rw [ShardedUnorderedMap.findS_insert hwf, hs0]
    simp
  have hsf2 : ((sm.insert (k, v)).2.insert (k, v')).2.find k = some v := by
    rw [ShardedUnorderedMap.findS_insert (hwf.insert (k, v)), hsf1]
    simp
  exact ⟨UnorderedMap.insert_fst_true v hm0, UnorderedMap.at_of_find hmf1,
    UnorderedMap.insert_fst_false v' hmf1, UnorderedMap.at_of_find hmf2,
    ShardedUnorderedMap.insertS_fst_true v hs0,
    ShardedUnorderedMap.atS_of_find hsf1,
    ShardedUnorderedMap.insertS_fst_false v' hsf1,
    ShardedUnorderedMap.atS_of_find hsf2⟩

/-- Witness for C3 at a concrete map, key and values. -/
theorem C3_witness :
    (UnorderedMap.mk [((1 : Nat), (10 : Nat))]).count 2 = 0 ∧
    (ShardedUnorderedMap.mk 2 (fun j => j)
      [[], [((1 : Nat), (20 : Nat))]]).count 2 = 0 ∧
    (((UnorderedMap.mk [((1 : Nat), (10 : Nat))]).insert (2, 7)).1
        = true ∧
      ((UnorderedMap.mk [((1 : Nat), (10 : Nat))]).insert (2, 7)).2.at' 2
        = .ok 7 ∧
      (((UnorderedMap.mk [((1 : Nat), (10 : Nat))]).insert (2, 7)).2.insert
          (2, 8)).1 = false ∧
      (((UnorderedMap.mk [((1 : Nat), (10 : Nat))]).insert (2, 7)).2.insert
          (2, 8)).2.at' 2 = .ok 7 ∧
      ((ShardedUnorderedMap.mk 2 (fun j => j)
          [[], [((1 : Nat), (20 : Nat))]]).insert (2, 7)).1 = true ∧
      ((ShardedUnorderedMap.mk 2 (fun j => j)
          [[], [((1 : Nat), (20 : Nat))]]).insert (2, 7)).2.at' 2
        = .ok 7 ∧
      (((ShardedUnorderedMap.mk 2 (fun j => j)
          [[], [((1 : Nat), (20 : Nat))]]).insert (2, 7)).2.insert
          (2, 8)).1 = false ∧
      (((ShardedUnorderedMap.mk 2 (fun j => j)
          [[], [((1 : Nat), (20 : Nat))]]).insert (2, 7)).2.insert
          (2, 8)).2.at' 2 = .ok 7) :=
  ⟨by decide, by decide,
    C3_insert_monotonicity _ _ ⟨by decide, by decide, by decide, by decide⟩
      2 7 8 (by decide) (by decide)⟩

/-- C5: a default-constructed map has size 0, is empty, `erase` and
`count` return 0 on every key, `find` is falsy, `data()` is an empty
sequence, and the map compares equal (and not `!=`) to another
default-constructed map of the same type — for `UnorderedMap` and for
`ShardedUnorderedMap` with any shard count (in particular the default
16). -/
theorem C5_default_constructed_is_empty (x y : K) (n : Nat) (f : K → Nat) :
    (UnorderedMap.emptyMap : UnorderedMap K V).size = 0 ∧
    (UnorderedMap.emptyMap : UnorderedMap K V).empty = true ∧
    ((UnorderedMap.emptyMap : UnorderedMap K V).erase x).1 = 0 ∧
    (UnorderedMap.emptyMap : UnorderedMap K V).count x = 0 ∧
    (UnorderedMap.emptyMap : UnorderedMap K V).find x = none ∧
    (UnorderedMap.emptyMap : UnorderedMap K V).data = [] ∧
    UnorderedMap.beq (UnorderedMap.emptyMap : UnorderedMap K V)
      UnorderedMap.emptyMap = true ∧
    UnorderedMap.bne (UnorderedMap.emptyMap : UnorderedMap K V)
      UnorderedMap.emptyMap = false ∧
    (ShardedUnorderedMap.emptyMap (K := K) (V := V) n f).size = 0 ∧
    (ShardedUnorderedMap.emptyMap (K := K) (V := V) n f).empty = true ∧
    ((ShardedUnorderedMap.emptyMap (K := K) (V := V) n f).erase y).1 = 0 ∧
    (ShardedUnorderedMap.emptyMap (K := K) (V := V) n f).count y = 0 ∧
    (ShardedUnorderedMap.emptyMap (K := K) (V := V) n f).find y = none ∧
    (ShardedUnorderedMap.emptyMap (K := K) (V := V) n f).data = [] ∧
    ShardedUnorderedMap.beq (ShardedUnorderedMap.emptyMap n f)
      (ShardedUnorderedMap.emptyMap (K := K) (V := V) n f) = true ∧
    ShardedUnorderedMap.bne (ShardedUnorderedMap.emptyMap n f)
      (ShardedUnorderedMap.emptyMap (K := K) (V := V) n f) = false := by
  have hso : ∀ z : K,
      (ShardedUnorderedMap.emptyMap (K := K) (V := V) n f).shardOf z = [] :=
    fun _ => getD_replicate_empty n _
  have hfind : ∀ z : K,
      (ShardedUnorderedMap.emptyMap (K := K) (V := V) n f).find z = none := by
    intro z
    show listFind
      ((ShardedUnorderedMap.emptyMap (K := K) (V := V) n f).shardOf z) z
        = none
    rw [hso z]
    rfl
  have hdata : (ShardedUnorderedMap.emptyMap (K := K) (V := V) n f).data
      = [] := flatten_replicate_nil n
  have hsize : (ShardedUnorderedMap.emptyMap (K := K) (V := V) n f).size
      = 0 := by
    show (List.map List.length
      (List.replicate n ([] : List (K × V)))).sum = 0
    rw [List.map_replicate]
    simp
  have hbeqS : ShardedUnorderedMap.beq (ShardedUnorderedMap.emptyMap n f)
      (ShardedUnorderedMap.emptyMap (K := K) (V := V) n f) = true := by
    unfold ShardedUnorderedMap.beq
    rw [hdata]
    simp
  refine ⟨rfl, rfl, rfl, rfl, rfl, rfl, rfl, rfl, hsize, ?_, ?_, ?_,
    hfind y, hdata, hbeqS, ?_⟩
  · show (List.replicate n ([] : List (K × V))).all
      (fun s => s.isEmpty) = true
    rw [List.all_eq_true]
    intro s hs
    rw [List.eq_of_mem_replicate hs]
    rfl
  · show (listErase
      ((ShardedUnorderedMap.emptyMap (K := K) (V := V) n f).shardOf y)
        y).1 = 0
    rw [hso y]
    rfl
  · show (bif ((ShardedUnorderedMap.emptyMap
        (K := K) (V := V) n f).find y).isSome then 1 else 0) = 0
    rw [hfind y]
    rfl
  · show (!(ShardedUnorderedMap.beq (ShardedUnorderedMap.emptyMap n f)
      (ShardedUnorderedMap.emptyMap (K := K) (V := V) n f))) = false
    rw [hbeqS]
    rfl

/-- Witness for C5 at a concrete key type, key and the default shard
count. -/
theorem C5_witness :
    (UnorderedMap.emptyMap : UnorderedMap Nat Nat).size = 0 ∧
    (UnorderedMap.emptyMap : UnorderedMap Nat Nat).empty = true ∧
    ((UnorderedMap.emptyMap : UnorderedMap Nat Nat).erase 0).1 = 0 ∧
    (UnorderedMap.emptyMap : UnorderedMap Nat Nat).count 0 = 0 ∧
    (UnorderedMap.emptyMap : UnorderedMap Nat Nat).find 0 = none ∧
    (UnorderedMap.emptyMap : UnorderedMap Nat Nat).data = [] ∧
    UnorderedMap.beq (UnorderedMap.emptyMap : UnorderedMap Nat Nat)
      UnorderedMap.emptyMap = true ∧
    UnorderedMap.bne (UnorderedMap.emptyMap : UnorderedMap Nat Nat)
      UnorderedMap.emptyMap = false ∧
    (ShardedUnorderedMap.emptyMap (K := Nat) (V := Nat)
      ShardedUnorderedMap.defaultShardCount (fun j => j)).size = 0 ∧
    (ShardedUnorderedMap.emptyMap (K := Nat) (V := Nat)
      ShardedUnorderedMap.defaultShardCount (fun j => j)).empty = true ∧
    ((ShardedUnorderedMap.emptyMap (K := Nat) (V := Nat)
      ShardedUnorderedMap.defaultShardCount (fun j => j)).erase 0).1 = 0 ∧
    (ShardedUnorderedMap.emptyMap (K := Nat) (V := Nat)
      ShardedUnorderedMap.defaultShardCount (fun j => j)).count 0 = 0 ∧
    (ShardedUnorderedMap.emptyMap (K := Nat) (V := Nat)
      ShardedUnorderedMap.defaultShardCount (fun j => j)).find 0 = none ∧
    (ShardedUnorderedMap.emptyMap (K := Nat) (V := Nat)
      ShardedUnorderedMap.defaultShardCount (fun j => j)).data = [] ∧
    ShardedUnorderedMap.beq
      (ShardedUnorderedMap.emptyMap ShardedUnorderedMap.defaultShardCount
        (fun j => j))
      (ShardedUnorderedMap.emptyMap (K := Nat) (V := Nat)
        ShardedUnorderedMap.defaultShardCount (fun j => j)) = true ∧
    ShardedUnorderedMap.bne
      (ShardedUnorderedMap.emptyMap ShardedUnorderedMap.defaultShardCount
        (fun j => j))
      (ShardedUnorderedMap.emptyMap (K := Nat) (V := Nat)
        ShardedUnorderedMap.defaultShardCount (fun j => j)) = false :=
  C5_default_constructed_is_empty 0 0 ShardedUnorderedMap.defaultShardCount
    (fun j => j)

/-- C6: `==` holds iff the sizes agree and every key of the first maps
to an equal value in the second; `==` is reflexive (in particular a
copy-constructed map equals its source) and symmetric, and `!=` is its
negation — for both map variants. -/
theorem C6_equality_characterisation_refl_symm
    (m m1 m2 : UnorderedMap K V) (hm : m.WF) (h1 : m1.WF) (h2 : m2.WF)
    (sm sm1 sm2 : ShardedUnorderedMap K V) (hs : sm.WF) (hs1 : sm1.WF)
    (hs2 : sm2.WF) :
    (UnorderedMap.beq m1 m2 = true ↔
      m1.size = m2.size ∧ ∀ kv ∈ m1.data, m2.find kv.1 = some kv.2) ∧
    UnorderedMap.beq m m = true ∧
    UnorderedMap.beq m.copy m = true ∧
    UnorderedMap.beq m1 m2 = UnorderedMap.beq m2 m1 ∧
    UnorderedMap.bne m1 m2 = !(UnorderedMap.beq m1 m2) ∧
    (ShardedUnorderedMap.beq sm1 sm2 = true ↔
      sm1.size = sm2.size ∧ ∀ kv ∈ sm1.data, sm2.find kv.1 = some kv.2) ∧
    ShardedUnorderedMap.beq sm sm = true ∧
    ShardedUnorderedMap.beq sm.copy sm = true ∧
    ShardedUnorderedMap.beq sm1 sm2 = ShardedUnorderedMap.beq sm2 sm1 ∧
    ShardedUnorderedMap.bne sm1 sm2
      = !(ShardedUnorderedMap.beq sm1 sm2) := by
  refine ⟨listBEq_iff, listBEq_refl hm, listBEq_refl hm,
    listBEq_symm h1 h2, rfl, ?_, ?_, ?_, ?_, rfl⟩
  · unfold ShardedUnorderedMap.beq
    simp [List.all_eq_true]
  · rw [ShardedUnorderedMap.beq_eq_listBEq hs]
    exact listBEq_refl (ShardedUnorderedMap.data_nodupKeys hs)
  · rw [ShardedUnorderedMap.beq_eq_listBEq hs]
    exact listBEq_refl (ShardedUnorderedMap.data_nodupKeys hs)
  · rw [ShardedUnorderedMap.beq_eq_listBEq hs2,
      ShardedUnorderedMap.beq_eq_listBEq hs1]
    exact listBEq_symm (ShardedUnorderedMap.data_nodupKeys hs1)
      (ShardedUnorderedMap.data_nodupKeys hs2)

/-- Witness for C6 at concrete maps. -/
theorem C6_witness :
    (UnorderedMap.mk [((1 : Nat), (10 : Nat))]).WF ∧
    (UnorderedMap.mk [((2 : Nat), (20 : Nat))]).WF ∧
    (UnorderedMap.mk [((2 : Nat), (20 : Nat))]).beq
        (UnorderedMap.mk [((1 : Nat), (10 : Nat))])
      = (UnorderedMap.mk [((1 : Nat), (10 : Nat))]).beq
        (UnorderedMap.mk [((2 : Nat), (20 : Nat))]) ∧
    (UnorderedMap.mk [((1 : Nat), (10 : Nat))]).beq
      (UnorderedMap.mk [((1 : Nat), (10 : Nat))]) = true ∧
    (ShardedUnorderedMap.mk 2 (fun j => j)
      [[], [((1 : Nat), (20 : Nat))]]).beq
      (ShardedUnorderedMap.mk 2 (fun j => j)
        [[], [((1 : Nat), (20 : Nat))]]) = true := by
  have hwfS : (ShardedUnorderedMap.mk 2 (fun j => j)
      [[], [((1 : Nat), (20 : Nat))]]).WF :=
    ⟨by decide, by decide, by decide, by decide⟩
  have h := C6_equality_characterisation_refl_symm
    (UnorderedMap.mk [((1 : Nat), (10 : Nat))])
    (UnorderedMap.mk [((2 : Nat), (20 : Nat))])
    (UnorderedMap.mk [((1 : Nat), (10 : Nat))])
    (by decide) (by decide) (by decide)
    (ShardedUnorderedMap.mk 2 (fun j => j) [[], [((1 : Nat), (20 : Nat))]])
    (ShardedUnorderedMap.mk 2 (fun j => j) [[], [((1 : Nat), (20 : Nat))]])
    (ShardedUnorderedMap.mk 2 (fun j => j) [[], [((1 : Nat), (20 : Nat))]])
    hwfS hwfS hwfS
  exact ⟨by decide, by decide, h.2.2.2.1, h.2.1, h.2.2.2.2.2.2.1⟩

/-- C7: a `data()` snapshot taken before any mutations is a pure value
unaffected by them; whenever the map's new contents equal the old
contents (as the maps' `==` tests), the new `data()` equals the old
snapshot as a multiset of entries — for both map variants. -/
theorem C7_snapshot_stable_under_mutation
    (m m' : UnorderedMap K V) (sm sm' : ShardedUnorderedMap K V)
    (hm' : m'.WF) (hs : sm.WF) (hs' : sm'.WF)
    (hU : UnorderedMap.beq m' m = true)
    (hS : ShardedUnorderedMap.beq sm' sm = true) :
    m'.data.Perm m.data ∧ sm'.data.Perm sm.data := by
  constructor
  · exact listPerm_of_listBEq hm' hU
  · refine listPerm_of_listBEq (ShardedUnorderedMap.data_nodupKeys hs') ?_
    rw [← ShardedUnorderedMap.beq_eq_listBEq hs]
    exact hS

/-- Witness for C7 at concrete maps with equal contents. -/
theorem C7_witness :
    (UnorderedMap.mk [((1 : Nat), (10 : Nat)), (2, 20)]).WF ∧
    UnorderedMap.beq (UnorderedMap.mk [((1 : Nat), (10 : Nat)), (2, 20)])
      (UnorderedMap.mk [((2 : Nat), (20 : Nat)), (1, 10)]) = true ∧
    ShardedUnorderedMap.beq
      (ShardedUnorderedMap.mk 2 (fun j => j)
        [[((2 : Nat), (20 : Nat))], [(1, 10)]])
      (ShardedUnorderedMap.mk 4 (fun j => j)
        [[], [((1 : Nat), (10 : Nat))], [(2, 20)], []]) = true ∧
    ((UnorderedMap.mk [((1 : Nat), (10 : Nat)), (2, 20)]).data.Perm
        (UnorderedMap.mk [((2 : Nat), (20 : Nat)), (1, 10)]).data ∧
      (ShardedUnorderedMap.mk 2 (fun j => j)
          [[((2 : Nat), (20 : Nat))], [(1, 10)]]).data.Perm
        (ShardedUnorderedMap.mk 4 (fun j => j)
          [[], [((1 : Nat), (10 : Nat))], [(2, 20)], []]).data) :=
  ⟨by decide, by decide, by decide,
    C7_snapshot_stable_under_mutation
      (UnorderedMap.mk [((2 : Nat), (20 : Nat)), (1, 10)])
      (UnorderedMap.mk [((1 : Nat), (10 : Nat)), (2, 20)])
      (ShardedUnorderedMap.mk 4 (fun j => j)
        [[], [((1 : Nat), (10 : Nat))], [(2, 20)], []])
      (ShardedUnorderedMap.mk 2 (fun j => j)
        [[((2 : Nat), (20 : Nat))], [(1, 10)]])
      (by decide) ⟨by decide, by decide, by decide, by decide⟩
      ⟨by decide, by decide, by decide, by decide⟩
      (by decide) (by decide)⟩

/-- C4: on a map containing `(k, v)`, `extract(k)` returns an occupied
node handle carrying `v` and removes `k`; re-inserting that handle
returns true and restores the map to a state equal to its pre-extract
state, with `at(k) = v` again; on an absent key `extract` returns an
empty handle — for both map variants. -/
theorem C4_extract_insert_roundtrip
    (m mA : UnorderedMap K V) (sm smA : ShardedUnorderedMap K V)
    (hm : m.WF) (hs : sm.WF) (k kA k' kA' : K) (v v' : V)
    (hv : m.find k = some v) (hv' : sm.find k' = some v')
    (ha : mA.find kA = none) (ha' : smA.find kA' = none) :
    (m.extract k).1.isEmptyHandle = false ∧
    (m.extract k).1.mappedVal = some v ∧
    (m.extract k).2.count k = 0 ∧
    ((m.extract k).2.insertNode (m.extract k).1).1 = true ∧
    UnorderedMap.beq ((m.extract k).2.insertNode (m.extract k).1).2 m
      = true ∧
    ((m.extract k).2.insertNode (m.extract k).1).2.at' k = .ok v ∧
    (mA.extract kA).1.isEmptyHandle = true ∧
    (sm.extract k').1.isEmptyHandle = false ∧
    (sm.extract k').1.mappedVal = some v' ∧
    (sm.extract k').2.count k' = 0 ∧
    ((sm.extract k').2.insertNode (sm.extract k').1).1 = true ∧
    ShardedUnorderedMap.beq
      ((sm.extract k').2.insertNode (sm.extract k').1).2 sm = true ∧
    ((sm.extract k').2.insertNode (sm.extract k').1).2.at' k' = .ok v' ∧
    (smA.extract kA').1.isEmptyHandle = true := by
  have hx : (m.extract k).1 = some (k, v) := UnorderedMap.extract_fst hv
  have hx' : (sm.extract k').1 = some (k', v') :=
    ShardedUnorderedMap.extractS_fst hv'
  have hfe : (m.extract k).2.find k = none := by
    rw [UnorderedMap.find_extract]
    simp
  have hfe' : (sm.extract k').2.find k' = none := by
    rw [ShardedUnorderedMap.findS_extract hs]
    simp
  have hfr : ((m.extract k).2.insertNode (m.extract k).1).2.find k
      = some v := by
    show listFind ((m.extract k).2.insertNode (m.extract k).1).2.table k
      = some v
    rw [UnorderedMap.roundtrip_table hv, listFind_cons]
    simp
  have hfr' : ((sm.extract k').2.insertNode (sm.extract k').1).2.find k'
      = some v' := by
    rw [hx']
    show ((sm.extract k').2.insert (k', v')).2.find k' = some v'
    rw [ShardedUnorderedMap.findS_insert (hs.extract k'), hfe']
    simp
  refine ⟨?_, ?_, (UnorderedMap.count_eq_zero_iff _ _).mpr hfe, ?_, ?_,
    UnorderedMap.at_of_find hfr, ?_, ?_, ?_,
    (ShardedUnorderedMap.countS_eq_zero_iff _ _).mpr hfe', ?_, ?_,
    ShardedUnorderedMap.atS_of_find hfr', ?_⟩
  · rw [hx]
    rfl
  · rw [hx]
    rfl
  · rw [hx]
    show ((m.extract k).2.insert (k, v)).1 = true
    exact UnorderedMap.insert_fst_true v hfe
  · refine listBEq_of_perm hm ?_
    show ((m.extract k).2.insertNode (m.extract k).1).2.table.Perm m.table
    rw [UnorderedMap.roundtrip_table hv]
    exact cons_filter_perm hm hv
  · rw [UnorderedMap.extract_fst_none ha]
    rfl
  · rw [hx']
    rfl
  · rw [hx']
    rfl
  · rw [hx']
    show ((sm.extract k').2.insert (k', v')).1 = true
    exact ShardedUnorderedMap.insertS_fst_true v' hfe'
  · rw [ShardedUnorderedMap.beq_eq_listBEq hs]
    exact listBEq_of_perm (ShardedUnorderedMap.data_nodupKeys hs)
      (ShardedUnorderedMap.roundtrip_data_perm hs hv')
  · rw [ShardedUnorderedMap.extractS_fst_none ha']
    rfl

/-- Witness for C4 at concrete maps, keys and values. -/
theorem C4_witness :
    (UnorderedMap.mk [((1 : Nat), (10 : Nat))]).WF ∧
    (UnorderedMap.mk [((1 : Nat), (10 : Nat))]).find 1 = some 10 ∧
    (UnorderedMap.mk ([] : List (Nat × Nat))).find 0 = none ∧
    (ShardedUnorderedMap.mk 2 (fun j => j)
      [[], [((1 : Nat), (20 : Nat))]]).find 1 = some 20 ∧
    (ShardedUnorderedMap.mk 2 (fun j => j)
      ([[], []] : List (List (Nat × Nat)))).find 0 = none ∧
    (((UnorderedMap.mk [((1 : Nat), (10 : Nat))]).extract
        1).1.isEmptyHandle = false ∧
      ((UnorderedMap.mk [((1 : Nat), (10 : Nat))]).extract 1).1.mappedVal
        = some 10 ∧
      ((UnorderedMap.mk [((1 : Nat), (10 : Nat))]).extract 1).2.count 1
        = 0 ∧
      (((UnorderedMap.mk [((1 : Nat), (10 : Nat))]).extract 1).2.insertNode
        ((UnorderedMap.mk [((1 : Nat), (10 : Nat))]).extract 1).1).1
        = true ∧
      UnorderedMap.beq
        (((UnorderedMap.mk [((1 : Nat), (10 : Nat))]).extract
          1).2.insertNode
          ((UnorderedMap.mk [((1 : Nat), (10 : Nat))]).extract 1).1).2
        (UnorderedMap.mk [((1 : Nat), (10 : Nat))]) = true ∧
      (((UnorderedMap.mk [((1 : Nat), (10 : Nat))]).extract
        1).2.insertNode
        ((UnorderedMap.mk [((1 : Nat), (10 : Nat))]).extract 1).1).2.at' 1
        = .ok 10 ∧
      ((UnorderedMap.mk ([] : List (Nat × Nat))).extract
        0).1.isEmptyHandle = true ∧
      ((ShardedUnorderedMap.mk 2 (fun j => j)
        [[], [((1 : Nat), (20 : Nat))]]).extract 1).1.isEmptyHandle
        = false ∧
      ((ShardedUnorderedMap.mk 2 (fun j => j)
        [[], [((1 : Nat), (20 : Nat))]]).extract 1).1.mappedVal
        = some 20 ∧
      ((ShardedUnorderedMap.mk 2 (fun j => j)
        [[], [((1 : Nat), (20 : Nat))]]).extract 1).2.count 1 = 0 ∧
      (((ShardedUnorderedMap.mk 2 (fun j => j)
        [[], [((1 : Nat), (20 : Nat))]]).extract 1).2.insertNode
        ((ShardedUnorderedMap.mk 2 (fun j => j)
          [[], [((1 : Nat), (20 : Nat))]]).extract 1).1).1 = true ∧
      ShardedUnorderedMap.beq
        (((ShardedUnorderedMap.mk 2 (fun j => j)
          [[], [((1 : Nat), (20 : Nat))]]).extract 1).2.insertNode
          ((ShardedUnorderedMap.mk 2 (fun j => j)
            [[], [((1 : Nat), (20 : Nat))]]).extract 1).1).2
        (ShardedUnorderedMap.mk 2 (fun j => j)
          [[], [((1 : Nat), (20 : Nat))]]) = true ∧
      (((ShardedUnorderedMap.mk 2 (fun j => j)
        [[], [((1 : Nat), (20 : Nat))]]).extract 1).2.insertNode
        ((ShardedUnorderedMap.mk 2 (fun j => j)
          [[], [((1 : Nat), (20 : Nat))]]).extract 1).1).2.at' 1
        = .ok 20 ∧
      ((ShardedUnorderedMap.mk 2 (fun j => j)
        ([[], []] : List (List (Nat × Nat)))).extract
        0).1.isEmptyHandle = true) :=
  ⟨by decide, by decide, by decide, by decide, by decide,
    C4_extract_insert_roundtrip
      (UnorderedMap.mk [((1 : Nat), (10 : Nat))])
      (UnorderedMap.mk ([] : List (Nat × Nat)))
      (ShardedUnorderedMap.mk 2 (fun j => j)
        [[], [((1 : Nat), (20 : Nat))]])
      (ShardedUnorderedMap.mk 2 (fun j => j)
        ([[], []] : List (List (Nat × Nat))))
      (by decide) ⟨by decide, by decide, by decide, by decide⟩
      1 0 1 0 10 20 (by decide) (by decide) (by decide) (by decide)⟩

end Concurrent



namespace Benchmark

/-- C10: for every benchmark function generated by `REGISTER_BENCHMARK`
with constant `subiterations` s > 0 and argument `total_iterations` t,
the number of timed loop iterations passed to `Benchmark::bench` is 1
when s ≥ t and ⌊t / s⌋ (integer division) otherwise; the default t is
1,000,000. -/
theorem C10_registered_benchmark_iteration_count (s t : Nat) (hs : 0 < s) :
    (s ≥ t → benchIterations s t = 1) ∧
    (s < t → benchIterations s t = t / s) ∧
    default_benchmark_iterations = 1000000 := by
  refine ⟨?_, ?_, rfl⟩
  · intro h
    unfold benchIterations
    rw [if_pos h]
  · intro h
    unfold benchIterations
    rw [if_neg (Nat.not_le.mpr h)]

/-- Witness for C10 at concrete subiteration and total counts. -/
theorem C10_witness :
    0 < 3 ∧ 3 < 10 ∧ benchIterations 3 10 = 10 / 3 :=
  ⟨by decide, by decide,
    (C10_registered_benchmark_iteration_count 3 10 (by decide)).2.1
      (by decide)⟩

end Benchmark
